import Mathlib

/-!
Shallow embedding of the token-staking program (src/lib.rs) and proofs about
its handlers.

Modelling conventions:
- `u64` fields are `Nat`; the Rust release-profile unchecked operators
  (`+`, `-`, `*` on `u64`) wrap modulo `2 ^ 64`, modelled by `wrap64` /
  `wsub64`.  Well-formedness bounds (`< 2 ^ 64`) appear as hypotheses where a
  statement needs them.
- `i64` values (`staked_at`, the clock) are `Int`; the cast
  `(current_time - staked_at) as u64` composed with wrapping `i64`
  subtraction equals `(current_time - staked_at) mod 2 ^ 64` as a
  mathematical integer, modelled by `asU64`.
- `Clock::get()?.unix_timestamp` is externalized as an explicit `now : Int`
  parameter; the external `token::transfer` CPI is externalized as a
  `transfer_ok : Bool` parameter (the CPI either succeeds or fails the whole
  handler), and a successful handler returns the requested transfer amount
  alongside the updated records.  A handler returning `Except.error` commits
  no state change and requests no transfer (Solana transaction semantics).
-/

namespace TokenStaking

/-- Modulus of the unsigned 64-bit integers. -/
def U64_MOD : Nat := 2 ^ 64

/-- Wrapping of an unbounded natural into u64, the effect of Rust release
mode unchecked  `+`  and  `*`  on u64. -/
def wrap64 (n : Nat) : Nat := n % U64_MOD

/-- Wrapping u64 subtraction `a - b` for `a b < U64_MOD`, the effect of Rust
release mode unchecked  `-`  on u64. -/
def wsub64 (a b : Nat) : Nat := (a + (U64_MOD - b % U64_MOD)) % U64_MOD

/-- The value of the Rust expression `x as u64` after a (possibly wrapping)
i64 computation producing the mathematical integer `x`: two's-complement
reduction modulo `2 ^ 64`. -/
def asU64 (x : Int) : Nat := (x % (U64_MOD : Int)).toNat

/-- The `StakePool` account (src/lib.rs lines 219-226).  `Pubkey` fields are
opaque identifiers modelled as `Nat`. -/
structure StakePool where
  authority : Nat
  token_mint : Nat
  total_staked : Nat
  stake_rate : Nat
  bump : Nat
deriving DecidableEq, Repr

/-- The `UserStake` account (src/lib.rs lines 228-234). -/
structure UserStake where
  amount : Nat
  staked_at : Int
  reward_debt : Nat
  bump : Nat
deriving DecidableEq, Repr

/-- The program's own error enum (src/lib.rs lines 246-250): it declares only
`InsufficientStake`. -/
inductive StakingError where
  | insufficientStake
deriving DecidableEq, Repr

/-- Errors a handler invocation can surface: the program's own errors, or a
failure of the external `token::transfer` CPI propagated by `?`. -/
inductive ProgramError where
  | staking (e : StakingError)
  | transferFailed
deriving DecidableEq, Repr

/-- The pure value computed by the body of `calculate_reward`
(src/lib.rs lines 236-244):
`time_passed = (current_time - staked_at) as u64` (a plain cast — there is no
negative-elapsed check), then
`(user_stake.amount * pool.stake_rate * time_passed) / 1000` with the two
u64 multiplications wrapping. -/
def reward_value (pool : StakePool) (user_stake : UserStake)
    (current_time : Int) : Nat :=
  let time_passed : Nat := asU64 (current_time - user_stake.staked_at)
  wrap64 (wrap64 (user_stake.amount * pool.stake_rate) * time_passed) / 1000

/-- `calculate_reward` (src/lib.rs lines 236-244).  After the clock read
(externalized as `current_time`) the body is infallible: it always returns
`Ok`. -/
def calculate_reward (pool : StakePool) (user_stake : UserStake)
    (current_time : Int) : Except ProgramError Nat :=
  Except.ok (reward_value pool user_stake current_time)

/-- `stake_tokens` handler (src/lib.rs lines 27-50): transfer `amount` from
the user to the pool (fails the call if the CPI fails), then
`pool.total_staked += amount` (wrapping), then overwrite the user record:
`amount = amount`, `staked_at = now`, `reward_debt = 0`.  The returned `Nat`
is the requested transfer amount. -/
def stake_tokens (pool : StakePool) (user_stake : UserStake) (now : Int)
    (transfer_ok : Bool) (amount : Nat) :
    Except ProgramError (StakePool × UserStake × Nat) :=
  if transfer_ok then
    Except.ok
      ({ pool with total_staked := wrap64 (pool.total_staked + amount) },
       { user_stake with amount := amount, staked_at := now, reward_debt := 0 },
       amount)
  else
    Except.error ProgramError.transferFailed

/-- `unstake_tokens` handler (src/lib.rs lines 52-79): require
`user_stake.amount >= amount` else `InsufficientStake`; compute the reward;
transfer `amount + reward` (wrapping addition) pool-to-user; then
`pool.total_staked -= amount` and `user_stake.amount -= amount` (both
wrapping). -/
def unstake_tokens (pool : StakePool) (user_stake : UserStake) (now : Int)
    (transfer_ok : Bool) (amount : Nat) :
    Except ProgramError (StakePool × UserStake × Nat) :=
  if user_stake.amount ≥ amount then
    match calculate_reward pool user_stake now with
    | Except.error e => Except.error e
    | Except.ok reward =>
      if transfer_ok then
        Except.ok
          ({ pool with total_staked := wsub64 pool.total_staked amount },
           { user_stake with amount := wsub64 user_stake.amount amount },
           wrap64 (amount + reward))
      else
        Except.error ProgramError.transferFailed
  else
    Except.error (ProgramError.staking StakingError.insufficientStake)

/-- `claim_rewards` handler (src/lib.rs lines 81-102): compute the reward;
transfer `reward` pool-to-user; then `user_stake.reward_debt += reward`
(wrapping).  The pool record is not mutated. -/
def claim_rewards (pool : StakePool) (user_stake : UserStake) (now : Int)
    (transfer_ok : Bool) :
    Except ProgramError (StakePool × UserStake × Nat) :=
  match calculate_reward pool user_stake now with
  | Except.error e => Except.error e
  | Except.ok reward =>
    if transfer_ok then
      Except.ok
        (pool,
         { user_stake with reward_debt := wrap64 (user_stake.reward_debt + reward) },
         reward)
    else
      Except.error ProgramError.transferFailed

/-! ### Helper lemmas -/

theorem wrap64_eq_of_lt {n : Nat} (h : n < U64_MOD) : wrap64 n = n :=
  Nat.mod_eq_of_lt h

theorem wrap64_lt (n : Nat) : wrap64 n < U64_MOD :=
  Nat.mod_lt _ (by norm_num [U64_MOD])

theorem asU64_eq_toNat {x : Int} (h0 : 0 ≤ x) (h1 : x < (U64_MOD : Int)) :
    asU64 x = x.toNat := by
  unfold asU64
  rw [Int.emod_eq_of_lt h0 h1]

theorem wsub64_eq_sub {a b : Nat} (ha : a < U64_MOD) (hba : b ≤ a) :
    wsub64 a b = a - b := by
  have hb : b < U64_MOD := lt_of_le_of_lt hba ha
  unfold wsub64
  rw [Nat.mod_eq_of_lt hb]
  have hsplit : a + (U64_MOD - b) = (a - b) + U64_MOD := by omega
  rw [hsplit, Nat.add_mod_right, Nat.mod_eq_of_lt (by omega)]

theorem reward_value_eq_formula (pool : StakePool) (user : UserStake) (now : Int)
    (h0 : user.staked_at ≤ now)
    (h1 : now - user.staked_at < (U64_MOD : Int))
    (h2 : user.amount * pool.stake_rate < U64_MOD)
    (h3 : user.amount * pool.stake_rate * (now - user.staked_at).toNat < U64_MOD) :
    reward_value pool user now
      = user.amount * pool.stake_rate * (now - user.staked_at).toNat / 1000 := by
  show wrap64 (wrap64 (user.amount * pool.stake_rate)
      * asU64 (now - user.staked_at)) / 1000 = _
  rw [asU64_eq_toNat (by omega) h1, wrap64_eq_of_lt h2, wrap64_eq_of_lt h3]

theorem reward_value_lt (pool : StakePool) (user : UserStake) (now : Int) :
    reward_value pool user now < U64_MOD :=
  lt_of_le_of_lt (Nat.div_le_self _ _) (wrap64_lt _)

theorem reward_value_debt_free (pool : StakePool) (user : UserStake) (now : Int)
    (d : Nat) :
    reward_value pool { user with reward_debt := d } now
      = reward_value pool user now := rfl

theorem two_pow_63_lt_u64 : ((2 : Int) ^ 63) < (U64_MOD : Int) := by
  norm_num [U64_MOD]

/-! ### Claim theorems -/

/-- C1: whenever the elapsed time is nonnegative and no intermediate
arithmetic step wraps (the i64 subtraction stays below 2 ^ 63, and the two
u64 products stay below 2 ^ 64), `calculate_reward` returns exactly
`floor(amount * rate * elapsed / 1000)`, i.e. the spec formula with
SCALE = 1000. -/
theorem C1_calculate_reward_formula (pool : StakePool) (user : UserStake)
    (now : Int)
    (h0 : user.staked_at ≤ now)
    (h1 : now - user.staked_at < (2 : Int) ^ 63)
    (h2 : user.amount * pool.stake_rate < U64_MOD)
    (h3 : user.amount * pool.stake_rate * (now - user.staked_at).toNat < U64_MOD) :
    calculate_reward pool user now
      = Except.ok (user.amount * pool.stake_rate * (now - user.staked_at).toNat / 1000) := by
  unfold calculate_reward
  rw [reward_value_eq_formula pool user now h0 (lt_trans h1 two_pow_63_lt_u64) h2 h3]

/-- C1 witness: the spec's worked example — rate 100, amount 500 staked at
t = 0, reward queried at t = 10 — yields reward 500. -/
theorem C1_calculate_reward_formula_witness :
    calculate_reward ⟨0, 0, 0, 100, 0⟩ ⟨500, 0, 0, 0⟩ 10 = Except.ok 500 := by
  have h := C1_calculate_reward_formula ⟨0, 0, 0, 100, 0⟩ ⟨500, 0, 0, 0⟩ 10
    (by norm_num) (by norm_num) (by decide) (by decide)
  simpa using h

/-- C2 (code bug): the handlers use unchecked u64 arithmetic, which wraps in
a release build instead of failing.  Staking 1 token into a pool whose
`total_staked` is 2 ^ 64 - 1 succeeds and silently wraps the total to 0, and
the product inside `calculate_reward` wraps to 0 at amount 2 ^ 31 and rate
2 ^ 33 even though the true product is 2 ^ 64. -/
theorem C2_unchecked_arithmetic_wraps :
    stake_tokens ⟨0, 0, U64_MOD - 1, 1, 0⟩ ⟨0, 0, 0, 0⟩ 7 true 1
      = Except.ok (⟨0, 0, 0, 1, 0⟩, ⟨1, 7, 0, 0⟩, 1) ∧
    reward_value ⟨0, 0, 0, 2 ^ 33, 0⟩ ⟨2 ^ 31, 0, 0, 0⟩ 1 = 0 := by
  constructor
  · rfl
  · rfl

/-- C3 (code bug): when the clock is strictly earlier than `staked_at` the
code does not fail with any error — there is no InvalidClock variant — it
casts the negative elapsed time to u64 and returns a huge reward: with
amount 1, rate 1, staked_at 10 and now 5 it returns
Ok(18446744073709551). -/
theorem C3_negative_elapsed_returns_ok :
    calculate_reward ⟨0, 0, 0, 1, 0⟩ ⟨1, 10, 0, 0⟩ 5
      = Except.ok 18446744073709551 := by
  rfl

/-- C4 counterexample: with reward_debt = 2 ^ 64 - 1 and a computed reward
of 1 (amount 1, rate 1000, one time unit), claim_rewards succeeds but the
new reward_debt is 0, not the prior value plus 1 — the unchecked addition
wrapped. -/
theorem C4_claim_rewards_counterexample :
    claim_rewards ⟨0, 0, 0, 1000, 0⟩ ⟨1, 0, U64_MOD - 1, 0⟩ 1 true
      = Except.ok (⟨0, 0, 0, 1000, 0⟩, ⟨1, 0, 0, 0⟩, 1) ∧
    (0 : Nat) ≠ (U64_MOD - 1) + 1 := by
  exact ⟨rfl, by decide⟩

/-- C4 (amended): after a successful claim_rewards computing reward r, the
user's reward_debt equals (prior + r) mod 2 ^ 64 — equal to prior + r
whenever that sum fits in u64; calculate_reward ignores reward_debt, so a
second claim at the same timestamp computes the same reward r regardless of
the accumulated debt; staked_at is unchanged; and at a later timestamp
(when no intermediate step wraps) the computed reward is at least r. -/
theorem C4_claim_rewards_amended (pool : StakePool) (user : UserStake)
    (now later : Int) (pool' : StakePool) (user' : UserStake) (r d : Nat)
    (h : claim_rewards pool user now true = Except.ok (pool', user', r))
    (hbase : user.staked_at ≤ now) (hlater : now ≤ later)
    (h1 : later - user.staked_at < (U64_MOD : Int))
    (h2 : user.amount * pool.stake_rate < U64_MOD)
    (h3 : user.amount * pool.stake_rate * (later - user.staked_at).toNat < U64_MOD) :
    user'.reward_debt = wrap64 (user.reward_debt + r) ∧
    (user.reward_debt + r < U64_MOD → user'.reward_debt = user.reward_debt + r) ∧
    reward_value pool { user with reward_debt := d } now = reward_value pool user now ∧
    claim_rewards pool' user' now true
      = Except.ok (pool', { user' with reward_debt := wrap64 (user'.reward_debt + r) }, r) ∧
    user'.staked_at = user.staked_at ∧
    r ≤ reward_value pool user later := by
  have h0 : claim_rewards pool user now true
      = Except.ok (pool,
          { user with reward_debt := wrap64 (user.reward_debt + reward_value pool user now) },
          reward_value pool user now) := rfl
  rw [h0] at h
  simp only [Except.ok.injEq, Prod.mk.injEq] at h
  obtain ⟨hp, hu, hr⟩ := h
  subst hp
  subst hr
  subst hu
  refine ⟨rfl, ?_, rfl, rfl, rfl, ?_⟩
  · intro hfit
    exact wrap64_eq_of_lt hfit
  · have hmono : (now - user.staked_at).toNat ≤ (later - user.staked_at).toNat :=
      Int.toNat_le_toNat (by omega)
    have h3n : user.amount * pool.stake_rate * (now - user.staked_at).toNat < U64_MOD :=
      lt_of_le_of_lt (Nat.mul_le_mul_left _ hmono) h3
    rw [reward_value_eq_formula pool user now hbase (by omega) h2 h3n,
      reward_value_eq_formula pool user later (by omega) h1 h2 h3]
    exact Nat.div_le_div_right (Nat.mul_le_mul_left _ hmono)

/-- C4 witness: rate 100, amount 500 staked at t = 0, claimed at t = 10 —
reward 500, reward_debt becomes 500, and a query at t = 20 yields at least
500. -/
theorem C4_claim_rewards_amended_witness :
    claim_rewards ⟨0, 0, 0, 100, 0⟩ ⟨500, 0, 0, 0⟩ 10 true
      = Except.ok (⟨0, 0, 0, 100, 0⟩, ⟨500, 0, 500, 0⟩, 500) ∧
    (500 : Nat) ≤ reward_value ⟨0, 0, 0, 100, 0⟩ ⟨500, 0, 0, 0⟩ 20 := by
  have h := C4_claim_rewards_amended ⟨0, 0, 0, 100, 0⟩ ⟨500, 0, 0, 0⟩ 10 20
    ⟨0, 0, 0, 100, 0⟩ ⟨500, 0, 500, 0⟩ 500 7 rfl (by norm_num) (by norm_num)
    (by decide) (by decide) (by decide)
  exact ⟨rfl, h.2.2.2.2.2⟩

/-- C5 counterexample: staking 5 into a pool whose total_staked is
2 ^ 64 - 3 succeeds with total_staked = 2, not the prior value plus 5 — the
unchecked addition wrapped. -/
theorem C5_stake_tokens_counterexample :
    stake_tokens ⟨0, 0, U64_MOD - 3, 1, 0⟩ ⟨0, 0, 0, 0⟩ 5 true 5
      = Except.ok (⟨0, 0, 2, 1, 0⟩, ⟨5, 5, 0, 0⟩, 5) ∧
    (2 : Nat) ≠ (U64_MOD - 3) + 5 := by
  exact ⟨rfl, by decide⟩

/-- C5 (amended): a successful stake_tokens overwrites the user record
regardless of its prior state — amount becomes exactly the argument (not
accumulated), staked_at becomes the clock time, reward_debt becomes 0 — and
pool.total_staked becomes (prior + amount) mod 2 ^ 64, equal to
prior + amount whenever that sum fits in u64. -/
theorem C5_stake_tokens_amended (pool : StakePool) (user : UserStake)
    (now : Int) (amount : Nat) (pool' : StakePool) (user' : UserStake) (t : Nat)
    (h : stake_tokens pool user now true amount = Except.ok (pool', user', t)) :
    user'.amount = amount ∧ user'.staked_at = now ∧ user'.reward_debt = 0 ∧
    pool'.total_staked = wrap64 (pool.total_staked + amount) ∧
    (pool.total_staked + amount < U64_MOD →
      pool'.total_staked = pool.total_staked + amount) := by
  have h0 : stake_tokens pool user now true amount
      = Except.ok ({ pool with total_staked := wrap64 (pool.total_staked + amount) },
          { user with amount := amount, staked_at := now, reward_debt := 0 },
          amount) := rfl
  rw [h0] at h
  simp only [Except.ok.injEq, Prod.mk.injEq] at h
  obtain ⟨hp, hu, ht⟩ := h
  subst hp
  subst hu
  refine ⟨rfl, rfl, rfl, rfl, ?_⟩
  intro hfit
  exact wrap64_eq_of_lt hfit

/-- C5 witness: a user with prior stake record (amount 3, staked at t = 1,
reward_debt 9) stakes 60 at t = 42 into a pool holding 100: the record is
overwritten to (60, 42, 0) and the pool total becomes 160. -/
theorem C5_stake_tokens_amended_witness :
    stake_tokens ⟨0, 0, 100, 7, 0⟩ ⟨3, 1, 9, 0⟩ 42 true 60
      = Except.ok (⟨0, 0, 160, 7, 0⟩, ⟨60, 42, 0, 0⟩, 60) ∧
    (⟨0, 0, 160, 7, 0⟩ : StakePool).total_staked = 100 + 60 := by
  have h := C5_stake_tokens_amended ⟨0, 0, 100, 7, 0⟩ ⟨3, 1, 9, 0⟩ 42 60
    ⟨0, 0, 160, 7, 0⟩ ⟨60, 42, 0, 0⟩ 60 rfl
  exact ⟨rfl, h.2.2.2.2 (by decide)⟩

/-- C6: an unstake request strictly greater than the recorded stake fails
with InsufficientStake; the guard runs before any mutation or transfer, and
the error return leaves both records unchanged and requests no transfer. -/
theorem C6_unstake_insufficient (pool : StakePool) (user : UserStake)
    (now : Int) (transfer_ok : Bool) (amount : Nat)
    (h : user.amount < amount) :
    unstake_tokens pool user now transfer_ok amount
      = Except.error (ProgramError.staking StakingError.insufficientStake) := by
  unfold unstake_tokens
  rw [if_neg (by omega)]

/-- C6 witness: unstaking 4 with only 3 recorded fails with
InsufficientStake. -/
theorem C6_unstake_insufficient_witness :
    unstake_tokens ⟨0, 0, 10, 1, 0⟩ ⟨3, 0, 0, 0⟩ 5 true 4
      = Except.error (ProgramError.staking StakingError.insufficientStake) :=
  C6_unstake_insufficient ⟨0, 0, 10, 1, 0⟩ ⟨3, 0, 0, 0⟩ 5 true 4 (by decide)

/-- C7 counterexample: with pool.total_staked = 0 but a (stale) user record
of 5, unstaking 5 does not fail — it succeeds and wraps the pool total to
2 ^ 64 - 5 instead of failing on amount > totalStaked. -/
theorem C7_unstake_counterexample :
    unstake_tokens ⟨0, 0, 0, 0, 0⟩ ⟨5, 0, 0, 0⟩ 3 true 5
      = Except.ok (⟨0, 0, U64_MOD - 5, 0, 0⟩, ⟨0, 0, 0, 0⟩, 5) := by
  rfl

/-- C7 (amended): for a successful unstake_tokens with computed reward r,
the requested transfer is (amount + r) mod 2 ^ 64 — exactly amount + r when
that sum fits in u64; pool.total_staked becomes (old - amount) mod 2 ^ 64,
which is an exact decrease by amount whenever amount ≤ totalStaked (when
amount > totalStaked the unchecked subtraction wraps instead of failing);
and the user's amount decreases by exactly amount. -/
theorem C7_unstake_amended (pool : StakePool) (user : UserStake) (now : Int)
    (amount : Nat) (pool' : StakePool) (user' : UserStake) (t : Nat)
    (h : unstake_tokens pool user now true amount = Except.ok (pool', user', t))
    (hts : pool.total_staked < U64_MOD) (hA : user.amount < U64_MOD)
    (hle : amount ≤ pool.total_staked)
    (hr : amount + reward_value pool user now < U64_MOD) :
    t = amount + reward_value pool user now ∧
    pool'.total_staked = pool.total_staked - amount ∧
    user'.amount = user.amount - amount := by
  by_cases hguard : user.amount ≥ amount
  · have h0 : unstake_tokens pool user now true amount
        = Except.ok ({ pool with total_staked := wsub64 pool.total_staked amount },
            { user with amount := wsub64 user.amount amount },
            wrap64 (amount + reward_value pool user now)) := by
      unfold unstake_tokens
      rw [if_pos hguard]
      rfl
    rw [h0] at h
    simp only [Except.ok.injEq, Prod.mk.injEq] at h
    obtain ⟨hp, hu, ht⟩ := h
    subst hp
    subst hu
    subst ht
    exact ⟨wrap64_eq_of_lt hr, wsub64_eq_sub hts hle, wsub64_eq_sub hA hguard⟩
  · exfalso
    unfold unstake_tokens at h
    rw [if_neg hguard] at h
    simp at h

/-- C7 witness: the spec's worked example — pool holds 500 at rate 100, the
user unstakes 200 at t = 20: reward 1000, transfer 1200, pool total drops
to 300, user amount to 300. -/
theorem C7_unstake_amended_witness :
    unstake_tokens ⟨0, 0, 500, 100, 0⟩ ⟨500, 0, 0, 0⟩ 20 true 200
      = Except.ok (⟨0, 0, 300, 100, 0⟩, ⟨300, 0, 0, 0⟩, 1200) ∧
    (1200 : Nat) = 200 + reward_value ⟨0, 0, 500, 100, 0⟩ ⟨500, 0, 0, 0⟩ 20 := by
  have h := C7_unstake_amended ⟨0, 0, 500, 100, 0⟩ ⟨500, 0, 0, 0⟩ 20 200
    ⟨0, 0, 300, 100, 0⟩ ⟨300, 0, 0, 0⟩ 1200 rfl (by decide) (by decide)
    (by decide) (by decide)
  exact ⟨rfl, h.1⟩

/-- C8: every successful unstake_tokens leaves the user's staked_at,
reward_debt (and bump) unchanged — only amount is mutated, to the smaller
remaining value — so a subsequent Unstake or Claim recomputes reward over
the same original elapsed-time baseline applied to the new, smaller
amount. -/
theorem C8_unstake_frame (pool : StakePool) (user : UserStake) (now : Int)
    (transfer_ok : Bool) (amount : Nat) (pool' : StakePool)
    (user' : UserStake) (t : Nat)
    (h : unstake_tokens pool user now transfer_ok amount
      = Except.ok (pool', user', t))
    (hA : user.amount < U64_MOD) :
    user'.staked_at = user.staked_at ∧ user'.reward_debt = user.reward_debt ∧
    user'.bump = user.bump ∧ user'.amount = user.amount - amount ∧
    user'.amount ≤ user.amount := by
  by_cases hguard : user.amount ≥ amount
  · cases transfer_ok with
    | false =>
      exfalso
      have h0 : unstake_tokens pool user now false amount
          = Except.error ProgramError.transferFailed := by
        unfold unstake_tokens
        rw [if_pos hguard]
        rfl
      rw [h0] at h
      simp at h
    | true =>
      have h0 : unstake_tokens pool user now true amount
          = Except.ok ({ pool with total_staked := wsub64 pool.total_staked amount },
              { user with amount := wsub64 user.amount amount },
              wrap64 (amount + reward_value pool user now)) := by
        unfold unstake_tokens
        rw [if_pos hguard]
        rfl
      rw [h0] at h
      simp only [Except.ok.injEq, Prod.mk.injEq] at h
      obtain ⟨hp, hu, ht⟩ := h
      subst hu
      refine ⟨rfl, rfl, rfl, wsub64_eq_sub hA hguard, ?_⟩
      show wsub64 user.amount amount ≤ user.amount
      rw [wsub64_eq_sub hA hguard]
      exact Nat.sub_le _ _
  · exfalso
    unfold unstake_tokens at h
    rw [if_neg hguard] at h
    simp at h

/-- C8 witness: a user with record (100, staked at t = 2, debt 33) unstakes
40 at t = 12 from a pool at rate 50: staked_at and reward_debt survive
unchanged and amount drops to 60. -/
theorem C8_unstake_frame_witness :
    unstake_tokens ⟨0, 0, 400, 50, 0⟩ ⟨100, 2, 33, 4⟩ 12 true 40
      = Except.ok (⟨0, 0, 360, 50, 0⟩, ⟨60, 2, 33, 4⟩, 90) ∧
    (⟨60, 2, 33, 4⟩ : UserStake).staked_at = 2 ∧
    (⟨60, 2, 33, 4⟩ : UserStake).reward_debt = 33 := by
  have h := C8_unstake_frame ⟨0, 0, 400, 50, 0⟩ ⟨100, 2, 33, 4⟩ 12 true 40
    ⟨0, 0, 360, 50, 0⟩ ⟨60, 2, 33, 4⟩ 90 rfl (by decide)
  exact ⟨rfl, h.1, h.2.1⟩

/-- C9 counterexample: at amount 2 ^ 32, rate 2 ^ 32, elapsed 1 the computed
reward is 0, not floor(2 ^ 32 * 2 ^ 32 * 1 / 1000) — the u64 product wraps —
and halving the amount to 2 ^ 31 yields 9223372036854775, so doubling the
amount from 2 ^ 31 to 2 ^ 32 strictly decreases the computed reward. -/
theorem C9_reward_counterexample :
    reward_value ⟨0, 0, 0, 2 ^ 32, 0⟩ ⟨2 ^ 31, 0, 0, 0⟩ 1 = 9223372036854775 ∧
    reward_value ⟨0, 0, 0, 2 ^ 32, 0⟩ ⟨2 ^ 32, 0, 0, 0⟩ 1 = 0 ∧
    (0 : Nat) ≠ 2 ^ 32 * 2 ^ 32 * 1 / 1000 := by
  exact ⟨rfl, rfl, by decide⟩

/-- C9 (amended): whenever the doubled products still fit in u64 (and the
elapsed time is nonnegative and below 2 ^ 63), the computed reward equals
floor(amount * rate * elapsed / 1000), and doubling the amount or doubling
the elapsed time never decreases it. -/
theorem C9_reward_formula_monotone (pool : StakePool) (user : UserStake)
    (now : Int)
    (h0 : user.staked_at ≤ now)
    (h1 : now - user.staked_at < (2 : Int) ^ 63)
    (h2 : 2 * (user.amount * pool.stake_rate) < U64_MOD)
    (h3 : 2 * (user.amount * pool.stake_rate * (now - user.staked_at).toNat) < U64_MOD) :
    reward_value pool user now
      = user.amount * pool.stake_rate * (now - user.staked_at).toNat / 1000 ∧
    reward_value pool user now
      ≤ reward_value pool { user with amount := 2 * user.amount } now ∧
    reward_value pool user now
      ≤ reward_value pool user (now + (now - user.staked_at)) := by
  have h1u : now - user.staked_at < (U64_MOD : Int) :=
    lt_trans h1 two_pow_63_lt_u64
  have h2o : user.amount * pool.stake_rate < U64_MOD := by omega
  have h3o : user.amount * pool.stake_rate * (now - user.staked_at).toNat < U64_MOD := by
    omega
  have hbase := reward_value_eq_formula pool user now h0 h1u h2o h3o
  have hd2 : (2 * user.amount) * pool.stake_rate
      = 2 * (user.amount * pool.stake_rate) := by ring
  have hd3 : (2 * user.amount) * pool.stake_rate * (now - user.staked_at).toNat
      = 2 * (user.amount * pool.stake_rate * (now - user.staked_at).toNat) := by
    ring
  refine ⟨hbase, ?_, ?_⟩
  · have hdbl : reward_value pool { user with amount := 2 * user.amount } now
        = (2 * user.amount) * pool.stake_rate * (now - user.staked_at).toNat / 1000 :=
      reward_value_eq_formula pool { user with amount := 2 * user.amount } now h0 h1u
        (by show (2 * user.amount) * pool.stake_rate < U64_MOD
            rw [hd2]
            exact h2)
        (by show (2 * user.amount) * pool.stake_rate
              * (now - user.staked_at).toNat < U64_MOD
            rw [hd3]
            exact h3)
    rw [hbase, hdbl, hd3]
    exact Nat.div_le_div_right (by omega)
  · have hsplit : now + (now - user.staked_at) - user.staked_at
        = (now - user.staked_at) + (now - user.staked_at) := by ring
    have htn : (now + (now - user.staked_at) - user.staked_at).toNat
        = (now - user.staked_at).toNat + (now - user.staked_at).toNat := by
      rw [hsplit]
      exact Int.toNat_add (by omega) (by omega)
    have hring : user.amount * pool.stake_rate
        * ((now - user.staked_at).toNat + (now - user.staked_at).toNat)
        = 2 * (user.amount * pool.stake_rate * (now - user.staked_at).toNat) := by
      ring
    have h1d : now + (now - user.staked_at) - user.staked_at < (U64_MOD : Int) := by
      have hcast : ((U64_MOD : Nat) : Int) = 2 * (2 : Int) ^ 63 := by
        norm_num [U64_MOD]
      rw [hsplit, hcast]
      omega
    have h3d : user.amount * pool.stake_rate
        * (now + (now - user.staked_at) - user.staked_at).toNat < U64_MOD := by
      rw [htn, hring]
      exact h3
    have hdbl := reward_value_eq_formula pool user (now + (now - user.staked_at))
      (by omega) h1d h2o h3d
    rw [hbase, hdbl, htn, hring]
    exact Nat.div_le_div_right (by omega)

/-- C9 witness: at rate 100, amount 500 staked at t = 0, queried at t = 10,
the reward is floor(500 * 100 * 10 / 1000), and doubling the amount or the
elapsed time does not decrease it. -/
theorem C9_reward_formula_monotone_witness :
    reward_value ⟨0, 0, 0, 100, 0⟩ ⟨500, 0, 0, 0⟩ 10
      = 500 * 100 * ((10 : Int) - 0).toNat / 1000 ∧
    reward_value ⟨0, 0, 0, 100, 0⟩ ⟨500, 0, 0, 0⟩ 10
      ≤ reward_value ⟨0, 0, 0, 100, 0⟩ ⟨1000, 0, 0, 0⟩ 10 ∧
    reward_value ⟨0, 0, 0, 100, 0⟩ ⟨500, 0, 0, 0⟩ 10
      ≤ reward_value ⟨0, 0, 0, 100, 0⟩ ⟨500, 0, 0, 0⟩ 20 := by
  have h := C9_reward_formula_monotone ⟨0, 0, 0, 100, 0⟩ ⟨500, 0, 0, 0⟩ 10
    (by norm_num) (by norm_num) (by decide) (by decide)
  exact ⟨h.1, h.2.1, h.2.2⟩

/-- C10: unstaking 0 always passes the InsufficientStake check and (when
the transfer succeeds) completes, transferring exactly the accrued reward
while leaving the pool record and the user record — amount, staked_at,
reward_debt, bump — numerically unchanged: a reward payout that bypasses
the reward_debt bookkeeping of claim_rewards. -/
theorem C10_unstake_zero (pool : StakePool) (user : UserStake) (now : Int)
    (hts : pool.total_staked < U64_MOD) (hA : user.amount < U64_MOD) :
    unstake_tokens pool user now true 0
      = Except.ok (pool, user, reward_value pool user now) := by
  have h0 : unstake_tokens pool user now true 0
      = Except.ok ({ pool with total_staked := wsub64 pool.total_staked 0 },
          { user with amount := wsub64 user.amount 0 },
          wrap64 (0 + reward_value pool user now)) := by
    unfold unstake_tokens
    rw [if_pos (Nat.zero_le _)]
    rfl
  have hw : wsub64 pool.total_staked 0 = pool.total_staked := by
    rw [wsub64_eq_sub hts (Nat.zero_le _)]
    omega
  have hw2 : wsub64 user.amount 0 = user.amount := by
    rw [wsub64_eq_sub hA (Nat.zero_le _)]
    omega
  have hw3 : wrap64 (0 + reward_value pool user now)
      = reward_value pool user now := by
    rw [Nat.zero_add]
    exact wrap64_eq_of_lt (reward_value_lt pool user now)
  rw [h0, hw, hw2, hw3]

/-- C10 witness: a user with 500 staked at t = 0 in a pool at rate 100
unstakes 0 at t = 10: both records are returned unchanged and the requested
transfer is the accrued reward, 500. -/
theorem C10_unstake_zero_witness :
    unstake_tokens ⟨1, 2, 500, 100, 3⟩ ⟨500, 0, 0, 1⟩ 10 true 0
      = Except.ok (⟨1, 2, 500, 100, 3⟩, ⟨500, 0, 0, 1⟩,
          reward_value ⟨1, 2, 500, 100, 3⟩ ⟨500, 0, 0, 1⟩ 10) ∧
    reward_value ⟨1, 2, 500, 100, 3⟩ ⟨500, 0, 0, 1⟩ 10 = 500 := by
  exact ⟨C10_unstake_zero ⟨1, 2, 500, 100, 3⟩ ⟨500, 0, 0, 1⟩ 10
    (by decide) (by decide), rfl⟩

end TokenStaking
